import Mathlib

/-!
Verification of the temporal-geometric world engine of time-map-app-2.

The definitions below are a shallow embedding of the JavaScript sources:
TimePoint and Property (domain/value-objects), Vertex, Layer, Feature with
its Point/Line/Polygon variants (domain/entities), the GeometryService and
LayerService (domain/services), the EditFeatureUseCase operations
(application/usecases/EditFeatureUseCase.js) and the history-operation
dispatch of EditingViewModel (presentation/view-models/EditingViewModel.js).
JavaScript numbers are modelled as exact rationals, ids as strings, and the
nondeterministic id generator as an explicit supply threaded through the
operations.  Operations that mutate the repository's cached World in place
are modelled state-passing: they return the post-call World even when they
throw, because JSONWorldRepository.getWorld hands out its cached object, so
mutations done before a throw stay visible to the caller.
-/

namespace TimeMap

/-- Embedding of domain/value-objects/TimePoint.js: a year with optional
month and day, null modelled as none. -/
structure TimePoint where
  year : Int
  month : Option Int
  day : Option Int
deriving Repr, DecidableEq

/-- Embedding of TimePoint.isBefore: compare year, then month, then day; a
null month or day sorts before any present value at that level. -/
def TimePoint.isBefore (a b : TimePoint) : Bool :=
  if a.year ≠ b.year then a.year < b.year
  else if a.month ≠ b.month then
    match a.month, b.month with
    | none, _ => true
    | _, none => false
    | some m, some n => m < n
  else if a.day ≠ b.day then
    match a.day, b.day with
    | none, _ => true
    | _, none => false
    | some d, some e => d < e
  else false

/-- An optional integer ordered with none below every value, as
TimePoint.isBefore treats a null month or day. -/
def okey : Option Int → WithBot Int
  | none => ⊥
  | some m => (m : WithBot Int)

/-- The lexicographic key realising TimePoint.isBefore as a linear order. -/
def TimePoint.key (t : TimePoint) : Int ×ₗ (WithBot Int ×ₗ WithBot Int) :=
  toLex (t.year, toLex (okey t.month, okey t.day))

/-- Embedding of the Property value object (timed attribute bundle with an
activation instant and an optional existence window). -/
structure Property where
  timePoint : TimePoint
  name : String
  description : String
  attributes : List (String × String)
  startTime : Option TimePoint
  endTime : Option TimePoint
deriving Repr, DecidableEq

/-- Embedding of Property.isActiveAt: active at t iff t is not before the
activation timePoint, not before startTime when present, and endTime when
present is not before t. -/
def Property.isActiveAt (p : Property) (t : TimePoint) : Bool :=
  if t.isBefore p.timePoint then false
  else if (match p.startTime with
           | some s => t.isBefore s
           | none => false) then false
  else if (match p.endTime with
           | some e => e.isBefore t
           | none => false) then false
  else true

/-- The three Feature variants of the source (Point, Line, Polygon). -/
inductive FeatureKind where
  | point
  | line
  | polygon
deriving Repr, DecidableEq

/-- A sub-polygon record of a multipolygon (exclave) as stored on the
Polygon entity. -/
structure SubPolygon where
  vertexIds : List String
  holesVertexIds : List (List String)
deriving Repr, DecidableEq

/-- Embedding of the Feature class hierarchy as one record: the base fields
id, vertexIds, properties, layerId plus the Polygon subclass fields, which
are kept at their constructor defaults for points and lines. -/
structure Feature where
  id : String
  kind : FeatureKind
  vertexIds : List String
  properties : List Property
  layerId : String
  holesVertexIds : List (List String)
  parentId : String
  childIds : List String
  isMultiPolygon : Bool
  subPolygons : List SubPolygon
deriving Repr, DecidableEq

/-- The loop body of Feature.getPropertyAt: scan the property list keeping
the active property seen so far, replacing it only when its timePoint is
strictly before the challenger's. -/
def propFold (t : TimePoint) (acc : Option Property) : List Property → Option Property
  | [] => acc
  | p :: rest =>
    if p.isActiveAt t then
      match acc with
      | none => propFold t (some p) rest
      | some l =>
        if l.timePoint.isBefore p.timePoint then propFold t (some p) rest
        else propFold t acc rest
    else propFold t acc rest

/-- Embedding of Feature.getPropertyAt: the active property with the latest
timePoint, scanned in list order. -/
def Feature.getPropertyAt (f : Feature) (t : TimePoint) : Option Property :=
  propFold t none f.properties

/-- Embedding of Feature.existsAt. -/
def Feature.existsAt (f : Feature) (t : TimePoint) : Bool :=
  f.getPropertyAt t ≠ none

/-- The base-class with-helpers build the replacement through
new this.constructor(id, vertexIds, properties, layerId) with only four
arguments, so on a Polygon every subclass field falls back to its
constructor default (no holes, parentId "0", no children, not a
multipolygon). -/
def Feature.reconstruct (f : Feature) (vertexIds : List String)
    (properties : List Property) (layerId : String) : Feature :=
  { id := f.id, kind := f.kind, vertexIds := vertexIds,
    properties := properties, layerId := layerId,
    holesVertexIds := [], parentId := "0", childIds := [],
    isMultiPolygon := false, subPolygons := [] }

/-- Embedding of Feature.withVertexIds (base class, four-argument
reconstruction). -/
def Feature.withVertexIds (f : Feature) (vertexIds : List String) : Feature :=
  f.reconstruct vertexIds f.properties f.layerId

/-- Embedding of Feature.withProperties (base class, four-argument
reconstruction). -/
def Feature.withProperties (f : Feature) (properties : List Property) : Feature :=
  f.reconstruct f.vertexIds properties f.layerId

/-- Embedding of Feature.addProperty: append to the property list. -/
def Feature.addProperty (f : Feature) (p : Property) : Feature :=
  f.withProperties (f.properties ++ [p])

/-- Embedding of Feature.withLayerId (base class, four-argument
reconstruction). -/
def Feature.withLayerId (f : Feature) (layerId : String) : Feature :=
  f.reconstruct f.vertexIds f.properties layerId

/-- Embedding of Polygon.withHolesVertexIds, the subclass override that
passes every field through. -/
def Feature.withHolesVertexIds (f : Feature) (holes : List (List String)) : Feature :=
  { f with holesVertexIds := holes }

/-- Embedding of Polygon.withParentId (subclass override). -/
def Feature.withParentId (f : Feature) (parentId : String) : Feature :=
  { f with parentId := parentId }

/-- Embedding of Polygon.withChildIds (subclass override). -/
def Feature.withChildIds (f : Feature) (childIds : List String) : Feature :=
  { f with childIds := childIds }

/-- Embedding of Polygon.addChildId. -/
def Feature.addChildId (f : Feature) (childId : String) : Feature :=
  f.withChildIds (f.childIds ++ [childId])

/-- Embedding of Polygon.removeChildId. -/
def Feature.removeChildId (f : Feature) (childId : String) : Feature :=
  f.withChildIds (f.childIds.filter (fun id => id ≠ childId))

/-- Embedding of Polygon.withMultiPolygonData; the constructor stores the
sub-polygon list only when the multipolygon flag is set. -/
def Feature.withMultiPolygonData (f : Feature) (isMultiPolygon : Bool)
    (subPolygons : List SubPolygon) : Feature :=
  { f with isMultiPolygon := isMultiPolygon,
           subPolygons := if isMultiPolygon then subPolygons else [] }

/-- Embedding of Polygon.hasChildren. -/
def Feature.hasChildren (f : Feature) : Bool :=
  f.childIds.length > 0

/-- Embedding of the Vertex entity: an id and planar coordinates. -/
structure Vertex where
  id : String
  x : Rat
  y : Rat
deriving Repr, DecidableEq

/-- Embedding of Vertex.withCoordinates: same id, new coordinates. -/
def Vertex.withCoordinates (v : Vertex) (x y : Rat) : Vertex :=
  { id := v.id, x := x, y := y }

/-- Embedding of the Layer entity. -/
structure Layer where
  id : String
  name : String
  order : Int
  visible : Bool
  opacity : Rat
  description : String
deriving Repr, DecidableEq

/-- Embedding of the value-object Coordinate. -/
structure Coordinate where
  x : Rat
  y : Rat
deriving Repr, DecidableEq

/-- The World snapshot the editing engine operates on: layers, vertices and
features (the free-form metadata plays no part in any operation modelled
here). -/
structure World where
  layers : List Layer
  vertices : List Vertex
  features : List Feature
deriving Repr, DecidableEq

/-- Embedding of GeometryService.doLineSegmentsIntersect: parametric test,
false for parallel segments. -/
def doLineSegmentsIntersect (p1 p2 q1 q2 : Coordinate) : Bool :=
  let dx1 := p2.x - p1.x
  let dy1 := p2.y - p1.y
  let dx2 := q2.x - q1.x
  let dy2 := q2.y - q1.y
  let denominator := dy2 * dx1 - dx2 * dy1
  if denominator = 0 then false
  else
    let ua := (dx2 * (p1.y - q1.y) - dy2 * (p1.x - q1.x)) / denominator
    let ub := (dx1 * (p1.y - q1.y) - dy1 * (p1.x - q1.x)) / denominator
    decide (0 ≤ ua ∧ ua ≤ 1 ∧ 0 ≤ ub ∧ ub ≤ 1)

/-- The edges of a ring as the source's loops visit them: indices pair each
vertex with its predecessor, the first vertex pairing with the last. -/
def ringEdges (ring : List Coordinate) : List (Coordinate × Coordinate) :=
  (List.range ring.length).map fun i =>
    let j := if i = 0 then ring.length - 1 else i - 1
    (ring.getD j ⟨0, 0⟩, ring.getD i ⟨0, 0⟩)

/-- Embedding of GeometryService.isPointInPolygon: ray-casting parity test.
When the edge is horizontal the first conjunct is false and the division
(whose JavaScript value would be infinite) is never relevant; rational
division by zero yields 0 here, under the same false conjunct. -/
def isPointInPolygon (point : Coordinate) (polygonVertices : List Coordinate) : Bool :=
  if polygonVertices.length < 3 then false
  else
    (ringEdges polygonVertices).foldl
      (fun inside e =>
        let vj := e.1
        let vi := e.2
        let intersect :=
          (decide (vi.y > point.y) ≠ decide (vj.y > point.y)) &&
            decide (point.x < (vj.x - vi.x) * (point.y - vi.y) / (vj.y - vi.y) + vi.x)
        if intersect then !inside else inside)
      false

/-- Embedding of GeometryService.doPolygonsOverlap: some edge pair
intersects, or either ring's first vertex lies inside the other ring. -/
def doPolygonsOverlap (polygon1 polygon2 : List Coordinate) : Bool :=
  ((ringEdges polygon1).any fun e1 =>
    (ringEdges polygon2).any fun e2 =>
      doLineSegmentsIntersect e1.1 e1.2 e2.1 e2.2)
  || isPointInPolygon (polygon1.getD 0 ⟨0, 0⟩) polygon2
  || isPointInPolygon (polygon2.getD 0 ⟨0, 0⟩) polygon1

/-- Embedding of GeometryService.projectPointToEdge: clamped scalar
projection of a point onto a segment.  The source divides the dot product by
the squared euclidean length; that quotient is computed here directly on
rationals, which agrees with the source wherever its square root is exact
and in particular on the degenerate-edge guard. -/
def projectPointToEdge (point edgeStart edgeEnd : Coordinate) : Coordinate :=
  let ex := edgeEnd.x - edgeStart.x
  let ey := edgeEnd.y - edgeStart.y
  let px := point.x - edgeStart.x
  let py := point.y - edgeStart.y
  let len2 := ex * ex + ey * ey
  if len2 = 0 then ⟨edgeStart.x, edgeStart.y⟩
  else
    let ratio := max 0 (min 1 ((px * ex + py * ey) / len2))
    ⟨edgeStart.x + ratio * ex, edgeStart.y + ratio * ey⟩

/-- The check LayerService.validateLayerHierarchy runs after sorting: every
order equals its predecessor plus one. -/
def consecutiveCheck : List Int → Bool
  | [] => true
  | [_] => true
  | a :: b :: rest => decide (b = a + 1) && consecutiveCheck (b :: rest)

/-- Embedding of LayerService.validateLayerHierarchy: reject duplicate order
values (the Set-size comparison), then sort ascending — the source sorts a
copy with a numeric comparator, modelled by an ascending insertion sort —
and require each order to be the previous plus one.  The source never
compares the least order against 0. -/
def validateLayerHierarchy (layers : List Layer) : Bool :=
  let orders := layers.map (fun l => l.order)
  if orders.length ≠ orders.dedup.length then false
  else consecutiveCheck (orders.insertionSort (fun a b => a ≤ b))

/-- Modelled from the spec's words for comparison with the code: layer order
values are unique and, sorted ascending, form exactly the contiguous
sequence 0..n-1 — equivalently, the multiset of orders is exactly
the integers 0..n-1. -/
def specLayerOrdersZeroContiguous (layers : List Layer) : Bool :=
  decide ((layers.map (fun l => l.order)).Perm
    ((List.range layers.length).map (fun i => (i : Int))))

/-- The id supply: generateId draws the timestamp-random suffix for the next
id from an explicit stream, standing for new Date().getTime() and the random
component. -/
structure IdGen where
  suffix : Nat → String
  next : Nat

/-- Embedding of EditFeatureUseCase.generateId: a type prefix, the timestamp
and a random component joined by dashes. -/
def generateId (idType : String) (g : IdGen) : String × IdGen :=
  (idType ++ "-" ++ g.suffix g.next, { g with next := g.next + 1 })

/-- JavaScript parseInt with radix 10 on an id component: an optional sign
followed by leading digits, none when no digit is found (NaN); ids never
carry leading whitespace, so skipping it is not modelled. -/
def jsParseInt (s : String) : Option Int :=
  let chars := s.toList
  let signed : Bool × List Char :=
    match chars with
    | '-' :: cs => (true, cs)
    | '+' :: cs => (false, cs)
    | cs => (false, cs)
  let digits := signed.2.takeWhile Char.isDigit
  if digits.isEmpty then none
  else
    let n : Nat := digits.foldl (fun acc c => acc * 10 + (c.toNat - '0'.toNat)) 0
    some (if signed.1 then -(n : Int) else (n : Int))

/-- The dash split of id.split, realised structurally over the string's
character list: splitting on every dash, keeping empty components. -/
def splitDash : List Char → List (List Char)
  | [] => [[]]
  | c :: rest =>
    let r := splitDash rest
    if c = '-' then [] :: r
    else
      match r with
      | [] => [[c]]
      | h :: t => (c :: h) :: t

/-- The timestamp extraction of EditFeatureUseCase.getOlderVertexId: the
second dash-separated component parsed as an integer, 0 when the id has no
dash, none standing for NaN. -/
def getTimestamp (id : String) : Option Int :=
  let parts := (splitDash id.toList).map (fun cs => String.mk cs)
  if parts.length > 1 then jsParseInt (parts.getD 1 "") else some 0

/-- Embedding of EditFeatureUseCase.getOlderVertexId: the id whose timestamp
component is numerically older wins, the first id on a tie; a NaN timestamp
makes the comparison false, so the second id is returned. -/
def getOlderVertexId (id1 id2 : String) : String :=
  match getTimestamp id1, getTimestamp id2 with
  | some t1, some t2 => if t1 ≤ t2 then id1 else id2
  | _, _ => id2

/-- The geometry argument of the editing operations: each field is present
or absent as on the untyped JavaScript object. -/
structure GeometryInput where
  vertices : Option (List Coordinate) := none
  holes : Option (List (List Coordinate)) := none
  vertexIds : Option (List String) := none
  vertexId : Option String := none
  holesVertexIds : Option (List (List String)) := none
  parentId : Option String := none
  childIds : Option (List String) := none
  isMultiPolygon : Option Bool := none
  subPolygons : Option (List SubPolygon) := none
deriving DecidableEq

/-- The updates argument of updateFeature. -/
structure Updates where
  properties : Option (List Property) := none
  geometry : Option GeometryInput := none
  layerId : Option String := none
deriving DecidableEq

/-- The vertex-allocating loop of EditFeatureUseCase.processGeometry: one
fresh id per raw coordinate, each new vertex pushed onto the world's vertex
list as it is created. -/
def allocVertices : List Coordinate → World → IdGen → List String × World × IdGen
  | [], w, g => ([], w, g)
  | c :: cs, w, g =>
    let (vid, g1) := generateId "vertex" g
    let w1 := { w with vertices := w.vertices ++ [{ id := vid, x := c.x, y := c.y }] }
    let (ids, w2, g2) := allocVertices cs w1 g1
    (vid :: ids, w2, g2)

/-- The hole-allocating loop of processGeometry, one id list per hole. -/
def allocHoles : List (List Coordinate) → World → IdGen → List (List String) × World × IdGen
  | [], w, g => ([], w, g)
  | h :: hs, w, g =>
    let (ids, w1, g1) := allocVertices h w g
    let (idss, w2, g2) := allocHoles hs w1 g1
    (ids :: idss, w2, g2)

/-- Embedding of EditFeatureUseCase.processGeometry: raw outer coordinates
and raw hole coordinates get fresh vertex ids, and the new vertices are
inserted into the world before any later validation runs. -/
def processGeometry (geometry : GeometryInput) (w : World) (g : IdGen) :
    GeometryInput × World × IdGen :=
  let step1 : GeometryInput × World × IdGen :=
    match geometry.vertices with
    | none => (geometry, w, g)
    | some coords =>
      let (ids, w1, g1) := allocVertices coords w g
      ({ geometry with vertexIds := some ids }, w1, g1)
  match geometry.holes with
  | none => step1
  | some holes =>
    let (idss, w2, g2) := allocHoles holes step1.2.1 step1.2.2
    ({ step1.1 with holesVertexIds := some idss }, w2, g2)

/-- Embedding of the Point constructor reached through Point.create: the
geometry's single vertexId is wrapped in a one-element list (a missing
vertexId still yields a one-element list in the source, modelled by a
placeholder), and the list length must be exactly one. -/
def pointCreate (id : String) (properties : List Property)
    (geometry : GeometryInput) (layerId : String) : Except String Feature :=
  let vids := [geometry.vertexId.getD "undefined"]
  if vids.length ≠ 1 then .error "Point must have exactly one vertex"
  else .ok { id := id, kind := .point, vertexIds := vids,
             properties := properties, layerId := layerId,
             holesVertexIds := [], parentId := "0", childIds := [],
             isMultiPolygon := false, subPolygons := [] }

/-- Embedding of the Line constructor reached through Line.create: at least
two vertex ids; an absent vertexIds field crashes the constructor in the
source (spreading undefined), modelled as an error. -/
def lineCreate (id : String) (properties : List Property)
    (geometry : GeometryInput) (layerId : String) : Except String Feature :=
  match geometry.vertexIds with
  | none => .error "TypeError: vertexIds is not iterable"
  | some vids =>
    if vids.length < 2 then .error "Line must have at least two vertices"
    else .ok { id := id, kind := .line, vertexIds := vids,
               properties := properties, layerId := layerId,
               holesVertexIds := [], parentId := "0", childIds := [],
               isMultiPolygon := false, subPolygons := [] }

/-- Embedding of the Polygon constructor reached through Polygon.create,
with the create factory's defaulting (null vertexIds becomes an empty ring,
a falsy parentId becomes "0") and the constructor's validation order: ring
arity, then the vertices-or-children requirement, then hole arity, then the
multipolygon checks. -/
def polygonCreate (id : String) (properties : List Property)
    (geometry : GeometryInput) (layerId : String) : Except String Feature :=
  let vertexIds := geometry.vertexIds.getD []
  let holes := geometry.holesVertexIds.getD []
  let parentId := match geometry.parentId with
    | some p => if p = "" then "0" else p
    | none => "0"
  let childIds := geometry.childIds.getD []
  let isMultiPolygon := geometry.isMultiPolygon.getD false
  let subPolygons := if isMultiPolygon then geometry.subPolygons.getD [] else []
  if vertexIds.length > 0 ∧ vertexIds.length < 3 then
    .error "Polygon must have at least three vertices"
  else if vertexIds.length = 0 ∧ childIds.length = 0 then
    .error "Polygon must either have vertices or child polygons"
  else if holes.any (fun h => h.length < 3) then
    .error "Polygon hole must have at least three vertices"
  else if isMultiPolygon ∧ subPolygons.length < 2 then
    .error "MultiPolygon must have at least two sub-polygons"
  else if isMultiPolygon ∧ subPolygons.any (fun sp => sp.vertexIds.length < 3) then
    .error "Each sub-polygon must have at least three vertices"
  else .ok { id := id, kind := .polygon, vertexIds := vertexIds,
             properties := properties, layerId := layerId,
             holesVertexIds := holes, parentId := parentId, childIds := childIds,
             isMultiPolygon := isMultiPolygon, subPolygons := subPolygons }

/-- Embedding of EditFeatureUseCase.addFeature: generate the feature id,
process the geometry (inserting any new vertices into the world), build the
feature — validatePolygonAddition performs no checks in the source — and
append it.  A constructor throw leaves the vertices already pushed by
processGeometry in the world. -/
def addFeature (w : World) (featureType : String) (properties : List Property)
    (geometry : GeometryInput) (layerId : String) (g : IdGen) :
    Except String Feature × World × IdGen :=
  let (featureId, g1) := generateId featureType g
  let (pg, w1, g2) := processGeometry geometry w g1
  let made : Except String Feature :=
    match featureType with
    | "point" => pointCreate featureId properties pg layerId
    | "line" => lineCreate featureId properties pg layerId
    | "polygon" => polygonCreate featureId properties pg layerId
    | other => .error ("Unknown feature type: " ++ other)
  match made with
  | .error e => (.error e, w1, g2)
  | .ok feature => (.ok feature, { w1 with features := w1.features ++ [feature] }, g2)

/-- A placeholder feature for list accesses that follow a successful index
search; it is never reached. -/
def dummyFeature : Feature :=
  { id := "", kind := .point, vertexIds := [], properties := [], layerId := "",
    holesVertexIds := [], parentId := "0", childIds := [],
    isMultiPolygon := false, subPolygons := [] }

/-- Embedding of EditFeatureUseCase.updateFeature: apply the requested
property, geometry and layer updates through the with-helpers (so a polygon
geometry update that carries vertexIds resets holes, parent and children
before the later fields reinstate what the caller supplied), then replace
the feature in place. -/
def updateFeature (w : World) (featureId : String) (updates : Updates) (g : IdGen) :
    Except String Feature × World × IdGen :=
  match w.features.findIdx? (fun f => f.id == featureId) with
  | none => (.error ("Feature not found with ID: " ++ featureId), w, g)
  | some i =>
    let f0 := w.features.getD i dummyFeature
    let f1 := match updates.properties with
      | some ps => f0.withProperties ps
      | none => f0
    let step : Feature × World × IdGen :=
      match updates.geometry with
      | none => (f1, w, g)
      | some geometry =>
        let (pg, w1, g1) := processGeometry geometry w g
        if f1.kind == .polygon then
          let fa := match pg.vertexIds with
            | some vids => f1.withVertexIds vids
            | none => f1
          let fb := match pg.holesVertexIds with
            | some hs => fa.withHolesVertexIds hs
            | none => fa
          let fc := match pg.parentId with
            | some p => if p = "" then fb else fb.withParentId p
            | none => fb
          let fd := match pg.isMultiPolygon with
            | some b => fc.withMultiPolygonData b (pg.subPolygons.getD [])
            | none => fc
          (fd, w1, g1)
        else
          match pg.vertexIds with
          | some vids => (f1.withVertexIds vids, w1, g1)
          | none =>
            match pg.vertexId with
            | some vid => (f1.withVertexIds [vid], w1, g1)
            | none => (f1, w1, g1)
    let f2 := step.1
    let f3 := match updates.layerId with
      | some lid => if lid = "" then f2 else f2.withLayerId lid
      | none => f2
    let w2 := { step.2.1 with features := step.2.1.features.set i f3 }
    (.ok f3, w2, step.2.2)

/-- Embedding of EditFeatureUseCase.cleanupUnusedVertices: for each id, drop
the vertex when no remaining feature's outer vertex list contains it — hole
rings are not consulted. -/
def cleanupUnusedVertices (w : World) (vertexIds : List String) : World :=
  vertexIds.foldl
    (fun w vid =>
      let isUsed := w.features.any (fun f => f.vertexIds.contains vid)
      if isUsed then w
      else
        match w.vertices.findIdx? (fun v => v.id == vid) with
        | some vi => { w with vertices := w.vertices.eraseIdx vi }
        | none => w)
    w

/-- Embedding of EditFeatureUseCase.deleteFeature: refuse polygons with
children, detach the feature from its parent's child list, remove it, then
sweep its outer vertex ids through cleanupUnusedVertices (the deleted
feature's hole vertex ids are not passed to the sweep). -/
def deleteFeature (w : World) (featureId : String) : Except String Unit × World :=
  match w.features.findIdx? (fun f => f.id == featureId) with
  | none => (.error ("Feature not found with ID: " ++ featureId), w)
  | some i =>
    let feature := w.features.getD i dummyFeature
    if feature.kind == .polygon && feature.hasChildren then
      (.error "Cannot delete a polygon that has child polygons", w)
    else
      let w1 :=
        if feature.kind == .polygon && feature.parentId ≠ "0" then
          match w.features.findIdx? (fun f => f.id == feature.parentId) with
          | some pi =>
            let parent := w.features.getD pi dummyFeature
            { w with features := w.features.set pi (parent.removeChildId featureId) }
          | none => w
        else w
      let w2 := { w1 with features := w1.features.eraseIdx i }
      (.ok (), cleanupUnusedVertices w2 feature.vertexIds)

/-- Embedding of EditFeatureUseCase.handleCollisionForVertexMove: the source
filters the polygons using the vertex but leaves the collision check
unimplemented and returns the requested position verbatim on both
branches. -/
def handleCollisionForVertexMove (vertex : Vertex) (newPosition : Coordinate)
    (w : World) : Coordinate :=
  let polygons := w.features.filter
    (fun f => f.kind == .polygon && f.vertexIds.contains vertex.id)
  if polygons.length = 0 then newPosition
  else newPosition

/-- A placeholder vertex for list accesses that follow a successful index
search; it is never reached. -/
def dummyVertex : Vertex := { id := "", x := 0, y := 0 }

/-- Embedding of EditFeatureUseCase.moveVertex: look the vertex up, run the
(unimplemented) collision adjustment, rewrite the vertex in place and report
every feature whose outer vertex list references it. -/
def moveVertex (w : World) (vertexId : String) (newPosition : Coordinate) :
    Except String (Vertex × List Feature) × World :=
  match w.vertices.findIdx? (fun v => v.id == vertexId) with
  | none => (.error ("Vertex not found with ID: " ++ vertexId), w)
  | some i =>
    let vertex := w.vertices.getD i dummyVertex
    let adjusted := handleCollisionForVertexMove vertex newPosition w
    let updatedVertex := vertex.withCoordinates adjusted.x adjusted.y
    let w1 := { w with vertices := w.vertices.set i updatedVertex }
    let affected := w1.features.filter (fun f => f.vertexIds.contains vertexId)
    (.ok (updatedVertex, affected), w1)

/-- One iteration of the shareVertices feature loop: rewrite the outer ring,
then rewrite the holes — the hole rewrite starts again from the iteration's
original feature binding, as the source does, so a feature matched by both
steps keeps its original outer ring. -/
def shareStep (keptId removedId : String) (f : Feature) (affected : List Feature) :
    Feature × List Feature :=
  let step1 : Feature × List Feature :=
    if f.vertexIds.contains removedId then
      let updated := f.withVertexIds
        (f.vertexIds.map (fun id => if id == removedId then keptId else id))
      (updated, affected ++ [updated])
    else (f, affected)
  if f.kind == .polygon && f.holesVertexIds.length > 0 then
    let holesUpdated := f.holesVertexIds.any (fun hole => hole.contains removedId)
    let newHoles := f.holesVertexIds.map (fun hole =>
      if hole.contains removedId then
        hole.map (fun id => if id == removedId then keptId else id)
      else hole)
    if holesUpdated then
      let updated2 := f.withHolesVertexIds newHoles
      if step1.2.any (fun a => a.id == updated2.id) then (updated2, step1.2)
      else (updated2, step1.2 ++ [updated2])
    else step1
  else step1

/-- Embedding of EditFeatureUseCase.shareVertices: no-op (returning null)
when the two vertices already coincide, otherwise keep the vertex with the
older id, rewrite every feature's outer ring and holes through shareStep and
remove the discarded vertex (the source's splice would drop the last vertex
if the discarded id were not found, which cannot happen here). -/
def shareVertices (w : World) (vertexId1 vertexId2 : String) :
    Except String (Option (Vertex × Vertex × List Feature)) × World :=
  match w.vertices.find? (fun v => v.id == vertexId1),
        w.vertices.find? (fun v => v.id == vertexId2) with
  | some vertex1, some vertex2 =>
    if vertex1.x = vertex2.x ∧ vertex1.y = vertex2.y then (.ok none, w)
    else
      let keptVertexId := getOlderVertexId vertexId1 vertexId2
      let removedVertexId := if keptVertexId = vertexId1 then vertexId2 else vertexId1
      let keptVertex := if keptVertexId = vertexId1 then vertex1 else vertex2
      let removedVertex := if keptVertexId = vertexId1 then vertex2 else vertex1
      let looped := w.features.foldl
        (fun (acc : List Feature × List Feature) f =>
          let r := shareStep keptVertexId removedVertexId f acc.2
          (acc.1 ++ [r.1], r.2))
        ([], [])
      let w1 := { w with features := looped.1 }
      let w2 :=
        match w1.vertices.findIdx? (fun v => v.id == removedVertexId) with
        | some ri => { w1 with vertices := w1.vertices.eraseIdx ri }
        | none => { w1 with vertices := w1.vertices.dropLast }
      (.ok (some (keptVertex, removedVertex, looped.2)), w2)
  | _, _ => (.error "One or both vertices not found", w)

/-- Embedding of EditFeatureUseCase.unlinkSharedVertex.  The source clones
the vertex through withCoordinates — whose constructor freezes the new
object — and then calls Object.defineProperty on the frozen clone to swap in
the fresh id: redefining a non-configurable, non-writable property with a
different value throws a TypeError, so the clone never receives the fresh
id; the remainder of the function is modelled for the only non-throwing case
(a generated id equal to the existing one). -/
def unlinkSharedVertex (w : World) (vertexId featureId : String) (g : IdGen) :
    Except String (Vertex × Feature) × World × IdGen :=
  match w.vertices.find? (fun v => v.id == vertexId) with
  | none => (.error ("Vertex not found with ID: " ++ vertexId), w, g)
  | some vertex =>
    match w.features.findIdx? (fun f => f.id == featureId) with
    | none => (.error ("Feature not found with ID: " ++ featureId), w, g)
    | some fi =>
      let feature := w.features.getD fi dummyFeature
      if ¬ feature.vertexIds.contains vertexId then
        (.error ("Feature does not use vertex with ID: " ++ vertexId), w, g)
      else
        let (newVertexId, g1) := generateId "vertex" g
        let newVertex := vertex.withCoordinates vertex.x vertex.y
        if newVertexId ≠ newVertex.id then
          (.error "TypeError: Cannot redefine property: _id", w, g1)
        else
          let w1 := { w with vertices := w.vertices ++ [newVertex] }
          let newVertexIds := feature.vertexIds.map
            (fun id => if id == vertexId then newVertexId else id)
          let updatedFeature := feature.withVertexIds newVertexIds
          let w2 := { w1 with features := w1.features.set fi updatedFeature }
          if feature.kind == .polygon && feature.holesVertexIds.length > 0 then
            let newHoles := feature.holesVertexIds.map (fun hole =>
              if hole.contains vertexId then
                hole.map (fun id => if id == vertexId then newVertexId else id)
              else hole)
            let updatedWithHoles := updatedFeature.withHolesVertexIds newHoles
            let w3 := { w2 with features := w2.features.set fi updatedWithHoles }
            (.ok (newVertex, updatedWithHoles), w3, g1)
          else
            (.ok (newVertex, updatedFeature), w2, g1)

/-- A history record of EditingViewModel: an untyped operation object whose
fields beyond the type tag default to empty values when the recording never
set them. -/
structure HistoryOperation where
  type : String
  featureId : String := ""
  vertexId : String := ""
  polygonId : String := ""
  newPosition : Coordinate := { x := 0, y := 0 }
  oldPosition : Coordinate := { x := 0, y := 0 }
  newProperties : List Property := []
  oldProperties : List Property := []
  newHolesVertexIds : List (List String) := []
  oldHolesVertexIds : List (List String) := []

/-- Embedding of EditingViewModel.executeOperation (the redo path): the add
and delete branches are unimplemented in the source and fall through the
switch silently; only an unknown type throws. -/
def executeOperation (op : HistoryOperation) (w : World) (g : IdGen) :
    Except String Unit × World × IdGen :=
  match op.type with
  | "add" => (.ok (), w, g)
  | "delete" => (.ok (), w, g)
  | "moveVertex" =>
    let r := moveVertex w op.vertexId op.newPosition
    (r.1.map (fun _ => ()), r.2, g)
  | "updateProperties" =>
    let r := updateFeature w op.featureId { properties := some op.newProperties } g
    (r.1.map (fun _ => ()), r.2.1, r.2.2)
  | "addHole" =>
    let r := updateFeature w op.polygonId
      { geometry := some { holesVertexIds := some op.newHolesVertexIds } } g
    (r.1.map (fun _ => ()), r.2.1, r.2.2)
  | other => (.error ("Unsupported operation type: " ++ other), w, g)

/-- Embedding of EditingViewModel.executeReverseOperation (the undo path):
undoing an add deletes the feature, undoing a delete is unimplemented in the
source and falls through the switch silently; only an unknown type
throws. -/
def executeReverseOperation (op : HistoryOperation) (w : World) (g : IdGen) :
    Except String Unit × World × IdGen :=
  match op.type with
  | "add" =>
    let r := deleteFeature w op.featureId
    (r.1, r.2, g)
  | "delete" => (.ok (), w, g)
  | "moveVertex" =>
    let r := moveVertex w op.vertexId op.oldPosition
    (r.1.map (fun _ => ()), r.2, g)
  | "updateProperties" =>
    let r := updateFeature w op.featureId { properties := some op.oldProperties } g
    (r.1.map (fun _ => ()), r.2.1, r.2.2)
  | "addHole" =>
    let r := updateFeature w op.polygonId
      { geometry := some { holesVertexIds := some op.oldHolesVertexIds } } g
    (r.1.map (fun _ => ()), r.2.1, r.2.2)
  | other => (.error ("Unsupported operation type: " ++ other), w, g)

/-- Every vertex id a feature references: its outer list and all of its hole
rings, as World invariant 1 of the spec enumerates them. -/
def featureVertexRefs (f : Feature) : List String :=
  f.vertexIds ++ f.holesVertexIds.flatten

/-- World invariant 1: every vertex id referenced by any feature, holes
included, resolves in the world's vertex set. -/
def World.refIntegrity (w : World) : Bool :=
  w.features.all fun f =>
    (featureVertexRefs f).all fun vid => w.vertices.any (fun v => v.id == vid)

/-- The coordinate ring of a feature's outer vertex list, resolved through
the world's vertex set the way LayerService.checkExclusivity builds it. -/
def polygonRing (w : World) (f : Feature) : List Coordinate :=
  f.vertexIds.map fun vid =>
    match w.vertices.find? (fun v => v.id == vid) with
    | some v => { x := v.x, y := v.y }
    | none => { x := 0, y := 0 }

/-- World invariant 6 violated: two distinct polygons of the same layer
whose outer rings overlap under GeometryService.doPolygonsOverlap. -/
def World.hasSameLayerOverlap (w : World) : Bool :=
  w.features.any fun f1 =>
    w.features.any fun f2 =>
      f1.id ≠ f2.id && f1.kind == FeatureKind.polygon && f2.kind == FeatureKind.polygon
        && f1.layerId == f2.layerId
        && doPolygonsOverlap (polygonRing w f1) (polygonRing w f2)

-- Decidable equality for operation results, so that concrete runs of the
-- editing operations can be checked by evaluation.
deriving instance DecidableEq for Except

/-- A property activating in the given year with no existence window. -/
def propAt (y : Int) (name : String) : Property :=
  { timePoint := { year := y, month := none, day := none },
    name := name, description := "", attributes := [],
    startTime := none, endTime := none }

/-- The base layer used by the concrete scenarios. -/
def baseLayer : Layer :=
  { id := "L0", name := "base", order := 0, visible := true, opacity := 1,
    description := "" }

/-- A polygon with an outer ring, holes and no children, as the scenarios
build them. -/
def mkPolygon (id : String) (vertexIds : List String)
    (holes : List (List String)) (layerId : String) : Feature :=
  { id := id, kind := .polygon, vertexIds := vertexIds,
    properties := [propAt 0 id], layerId := layerId,
    holesVertexIds := holes, parentId := "0", childIds := [],
    isMultiPolygon := false, subPolygons := [] }

/-- An id supply whose timestamps count up from 100. -/
def gen100 : IdGen := { suffix := fun n => toString (100 + n) ++ "-0", next := 0 }

/-- An id supply whose timestamps count up from 500. -/
def gen500 : IdGen := { suffix := fun n => toString (500 + n) ++ "-0", next := 0 }

/-- Scenario for the vertex-move claim: two unit-separated squares in the
same layer, not overlapping. -/
def c1World : World :=
  { layers := [baseLayer],
    vertices :=
      [ { id := "a1", x := 0, y := 0 }, { id := "a2", x := 2, y := 0 },
        { id := "a3", x := 2, y := 2 }, { id := "a4", x := 0, y := 2 },
        { id := "b1", x := 3, y := 0 }, { id := "b2", x := 5, y := 0 },
        { id := "b3", x := 5, y := 2 }, { id := "b4", x := 3, y := 2 } ],
    features :=
      [ mkPolygon "PA" ["a1", "a2", "a3", "a4"] [] "L0",
        mkPolygon "PB" ["b1", "b2", "b3", "b4"] [] "L0" ] }

/-- Scenario for the atomicity claim: an empty world receiving a degenerate
two-vertex polygon. -/
def c2World : World :=
  { layers := [baseLayer], vertices := [], features := [] }

/-- The world moveVertex produces from the vertex-move scenario: identical
to the scenario world except that b1 carries the requested coordinates. -/
def c1MovedWorld : World :=
  { layers := [baseLayer],
    vertices :=
      [ { id := "a1", x := 0, y := 0 }, { id := "a2", x := 2, y := 0 },
        { id := "a3", x := 2, y := 2 }, { id := "a4", x := 0, y := 2 },
        { id := "b1", x := 1, y := 1 }, { id := "b2", x := 5, y := 0 },
        { id := "b3", x := 5, y := 2 }, { id := "b4", x := 3, y := 2 } ],
    features :=
      [ mkPolygon "PA" ["a1", "a2", "a3", "a4"] [] "L0",
        mkPolygon "PB" ["b1", "b2", "b3", "b4"] [] "L0" ] }

/-- Geometry input for the atomicity claim: two raw coordinates, one short
of a legal ring. -/
def c2Geometry : GeometryInput :=
  { vertices := some [{ x := 0, y := 0 }, { x := 1, y := 0 }] }

/-- Scenario for the dangling-hole-reference claim: a line using v1 and v2,
and a polygon whose hole ring references v1. -/
def c3World : World :=
  { layers := [baseLayer],
    vertices :=
      [ { id := "v1", x := 0, y := 0 }, { id := "v2", x := 1, y := 0 },
        { id := "x1", x := 10, y := 0 }, { id := "x2", x := 20, y := 0 },
        { id := "x3", x := 10, y := 20 }, { id := "h2", x := 12, y := 2 },
        { id := "h3", x := 12, y := 4 } ],
    features :=
      [ { id := "A", kind := .line, vertexIds := ["v1", "v2"],
          properties := [propAt 0 "A"], layerId := "L0",
          holesVertexIds := [], parentId := "0", childIds := [],
          isMultiPolygon := false, subPolygons := [] },
        mkPolygon "B" ["x1", "x2", "x3"] [["v1", "h2", "h3"]] "L0" ] }

/-- Geometry input for the add/delete round-trip claim: a triangle with one
triangular hole, all raw coordinates. -/
def c4Geometry : GeometryInput :=
  { vertices := some [{ x := 0, y := 0 }, { x := 4, y := 0 }, { x := 0, y := 4 }],
    holes := some [[{ x := 1, y := 1 }, { x := 2, y := 1 }, { x := 1, y := 2 }]] }

/-- Scenario for the vertex-merge claim: a polygon referencing the newer
vertex both in its outer ring and in a hole ring. -/
def c5World : World :=
  { layers := [baseLayer],
    vertices :=
      [ { id := "vertex-100-0", x := 0, y := 0 },
        { id := "vertex-200-0", x := 5, y := 5 },
        { id := "vertex-300-0", x := 10, y := 0 },
        { id := "vertex-400-0", x := 10, y := 10 },
        { id := "vertex-500-0", x := 6, y := 6 },
        { id := "vertex-600-0", x := 6, y := 7 } ],
    features :=
      [ mkPolygon "P" ["vertex-200-0", "vertex-300-0", "vertex-400-0"]
          [["vertex-200-0", "vertex-500-0", "vertex-600-0"]] "L0" ] }

/-- Scenario for the unlink claim: one line sharing its first vertex. -/
def c6World : World :=
  { layers := [baseLayer],
    vertices :=
      [ { id := "vertex-100-0", x := 1, y := 2 },
        { id := "vertex-101-0", x := 3, y := 4 } ],
    features :=
      [ { id := "FL", kind := .line,
          vertexIds := ["vertex-100-0", "vertex-101-0"],
          properties := [propAt 0 "FL"], layerId := "L0",
          holesVertexIds := [], parentId := "0", childIds := [],
          isMultiPolygon := false, subPolygons := [] } ] }

/-- A layer with only its order mattering, for the hierarchy-validator
claim. -/
def mkLayer (i : Int) : Layer :=
  { id := "L" ++ toString i, name := "", order := i, visible := true,
    opacity := 1, description := "" }

/-- The feature of the temporal lookup scenario: unbounded properties at
years 100 and 200. -/
def c8Feature : Feature :=
  { id := "F8", kind := .point, vertexIds := ["v"],
    properties := [propAt 100 "y100", propAt 200 "y200"], layerId := "L0",
    holesVertexIds := [], parentId := "0", childIds := [],
    isMultiPolygon := false, subPolygons := [] }

/-- A year-only time point. -/
def yearTP (y : Int) : TimePoint := { year := y, month := none, day := none }

/-- A history record of a feature deletion, as undo would replay it. -/
def c9DeleteOp : HistoryOperation := { type := "delete", featureId := "F" }

/-- A history record of a feature addition, as redo would replay it. -/
def c9AddOp : HistoryOperation := { type := "add", featureId := "F" }

/-- The feature of the tie-break scenario: two active properties sharing the
latest activation year 200, a third active property at year 100. -/
def c10Feature : Feature :=
  { id := "F10", kind := .point, vertexIds := ["v"],
    properties := [propAt 100 "old", propAt 200 "first", propAt 200 "second"],
    layerId := "L0",
    holesVertexIds := [], parentId := "0", childIds := [],
    isMultiPolygon := false, subPolygons := [] }

theorem okey_lt_iff (x y : Option Int) :
    okey x < okey y ↔
      (match x, y with
       | none, none => False
       | none, some _ => True
       | some _, none => False
       | some m, some n => m < n) := by
  cases x <;> cases y <;>
    simp [okey, WithBot.bot_lt_coe, WithBot.coe_lt_coe]

theorem okey_inj {x y : Option Int} (h : okey x = okey y) : x = y := by
  cases x <;> cases y <;> simp_all [okey]

theorem key_lt_iff (a b : TimePoint) :
    a.key < b.key ↔
      a.year < b.year ∨ (a.year = b.year ∧
        (okey a.month < okey b.month ∨
          (okey a.month = okey b.month ∧ okey a.day < okey b.day))) := by
  unfold TimePoint.key
  rw [Prod.Lex.lt_iff]
  constructor
  · rintro (h | ⟨h1, h2⟩)
    · exact Or.inl h
    · refine Or.inr ⟨h1, ?_⟩
      rw [Prod.Lex.lt_iff] at h2
      exact h2
  · rintro (h | ⟨h1, h2⟩)
    · exact Or.inl h
    · exact Or.inr ⟨h1, (Prod.Lex.lt_iff _ _).mpr h2⟩

theorem isBefore_iff_key_lt (a b : TimePoint) :
    a.isBefore b = true ↔ a.key < b.key := by
  rw [key_lt_iff]
  unfold TimePoint.isBefore
  by_cases hy : a.year = b.year
  · by_cases hm : a.month = b.month
    · by_cases hd : a.day = b.day
      · simp [hy, hm, hd]
      · cases had : a.day <;> cases hbd : b.day <;>
          simp_all [okey_lt_iff, okey]
    · cases ham : a.month <;> cases hbm : b.month <;>
        simp_all [okey_lt_iff, okey]
  · simp only [ne_eq, hy, not_false_eq_true, if_true, decide_eq_true_eq]
    constructor
    · exact fun h => Or.inl h
    · rintro (h | ⟨h1, _⟩)
      · exact h
      · exact h1.elim

theorem key_inj {a b : TimePoint} (h : a.key = b.key) : a = b := by
  unfold TimePoint.key at h
  have h1 := toLex.injective h
  have hy := congrArg Prod.fst h1
  have h2 := toLex.injective (congrArg Prod.snd h1)
  have hm := okey_inj (congrArg Prod.fst h2)
  have hd := okey_inj (congrArg Prod.snd h2)
  cases a
  cases b
  simp_all

theorem isBefore_eq_false_iff (a b : TimePoint) :
    a.isBefore b = false ↔ b.key ≤ a.key := by
  rw [← not_lt, ← isBefore_iff_key_lt]
  cases h : a.isBefore b <;> simp

theorem propFold_ne_none (t : TimePoint) :
    ∀ (ps : List Property) (a : Property), propFold t (some a) ps ≠ none := by
  intro ps
  induction ps with
  | nil => intro a; simp [propFold]
  | cons p rest ih =>
    intro a
    simp only [propFold]
    by_cases hp : p.isActiveAt t = true
    · simp only [hp, if_true]
      split
      · exact ih p
      · exact ih a
    · simp only [Bool.not_eq_true] at hp
      simp only [hp, Bool.false_eq_true, if_false]
      exact ih a

theorem propFold_eq_none_iff (t : TimePoint) :
    ∀ (ps : List Property) (acc : Option Property),
      propFold t acc ps = none ↔ acc = none ∧ ∀ q ∈ ps, q.isActiveAt t = false := by
  intro ps
  induction ps with
  | nil => intro acc; simp [propFold]
  | cons p rest ih =>
    intro acc
    simp only [propFold]
    by_cases hp : p.isActiveAt t = true
    · cases acc with
      | none =>
        simp only [hp, if_true]
        constructor
        · intro h
          exact absurd h (propFold_ne_none t rest p)
        · rintro ⟨-, hall⟩
          exact absurd hp (by simp [hall p (List.mem_cons_self p rest)])
      | some l =>
        simp only [hp, if_true]
        constructor
        · intro h
          split at h
          · exact absurd h (propFold_ne_none t rest p)
          · exact absurd h (propFold_ne_none t rest l)
        · rintro ⟨h, -⟩
          cases h
    · simp only [Bool.not_eq_true] at hp
      simp only [hp, Bool.false_eq_true, if_false]
      rw [ih acc]
      constructor
      · rintro ⟨h1, h2⟩
        refine ⟨h1, fun q hq => ?_⟩
        rcases List.mem_cons.mp hq with rfl | hq'
        · exact hp
        · exact h2 q hq'
      · rintro ⟨h1, h2⟩
        exact ⟨h1, fun q hq => h2 q (List.mem_cons_of_mem p hq)⟩

theorem propFold_result (t : TimePoint) :
    ∀ (ps : List Property) (acc : Option Property) (r : Property),
      propFold t acc ps = some r →
      acc = some r ∨ (r ∈ ps ∧ r.isActiveAt t = true) := by
  intro ps
  induction ps with
  | nil => intro acc r h; exact Or.inl h
  | cons p rest ih =>
    intro acc r h
    cases acc with
    | none =>
      simp only [propFold] at h
      by_cases hp : p.isActiveAt t = true
      · simp only [hp, if_true] at h
        rcases ih (some p) r h with h' | h'
        · cases h'
          exact Or.inr ⟨List.mem_cons_self _ _, hp⟩
        · exact Or.inr ⟨List.mem_cons_of_mem p h'.1, h'.2⟩
      · simp only [Bool.not_eq_true] at hp
        simp only [hp, Bool.false_eq_true, if_false] at h
        rcases ih none r h with h' | h'
        · exact absurd h' (by simp)
        · exact Or.inr ⟨List.mem_cons_of_mem p h'.1, h'.2⟩
    | some l =>
      simp only [propFold] at h
      by_cases hp : p.isActiveAt t = true
      · simp only [hp, if_true] at h
        split at h
        · rcases ih (some p) r h with h' | h'
          · cases h'
            exact Or.inr ⟨List.mem_cons_self _ _, hp⟩
          · exact Or.inr ⟨List.mem_cons_of_mem p h'.1, h'.2⟩
        · rcases ih (some l) r h with h' | h'
          · exact Or.inl h'
          · exact Or.inr ⟨List.mem_cons_of_mem p h'.1, h'.2⟩
      · simp only [Bool.not_eq_true] at hp
        simp only [hp, Bool.false_eq_true, if_false] at h
        rcases ih (some l) r h with h' | h'
        · exact Or.inl h'
        · exact Or.inr ⟨List.mem_cons_of_mem p h'.1, h'.2⟩

theorem propFold_ge_acc (t : TimePoint) :
    ∀ (ps : List Property) (a r : Property),
      propFold t (some a) ps = some r →
      a.timePoint.key ≤ r.timePoint.key := by
  intro ps
  induction ps with
  | nil =>
    intro a r h
    simp only [propFold] at h
    cases h
    exact le_refl _
  | cons p rest ih =>
    intro a r h
    simp only [propFold] at h
    by_cases hp : p.isActiveAt t = true
    · simp only [hp, if_true] at h
      split at h
      · rename_i hlt
        rw [isBefore_iff_key_lt] at hlt
        exact le_of_lt (lt_of_lt_of_le hlt (ih p r h))
      · exact ih a r h
    · simp only [Bool.not_eq_true] at hp
      simp only [hp, Bool.false_eq_true, if_false] at h
      exact ih a r h

theorem propFold_dominates (t : TimePoint) :
    ∀ (ps : List Property) (acc : Option Property) (r : Property),
      propFold t acc ps = some r →
      ∀ q ∈ ps, q.isActiveAt t = true → q.timePoint.key ≤ r.timePoint.key := by
  intro ps
  induction ps with
  | nil => intro acc r _ q hq; cases hq
  | cons p rest ih =>
    intro acc r h q hq hqact
    cases acc with
    | none =>
      simp only [propFold] at h
      rcases List.mem_cons.mp hq with rfl | hq'
      · simp only [hqact, if_true] at h
        exact propFold_ge_acc t rest q r h
      · by_cases hp : p.isActiveAt t = true
        · simp only [hp, if_true] at h
          exact ih (some p) r h q hq' hqact
        · simp only [Bool.not_eq_true] at hp
          simp only [hp, Bool.false_eq_true, if_false] at h
          exact ih none r h q hq' hqact
    | some l =>
      simp only [propFold] at h
      rcases List.mem_cons.mp hq with rfl | hq'
      · simp only [hqact, if_true] at h
        split at h
        · exact propFold_ge_acc t rest q r h
        · rename_i hnlt
          have hle : q.timePoint.key ≤ l.timePoint.key := by
            rw [← isBefore_eq_false_iff]
            exact Bool.of_not_eq_true hnlt
          exact le_trans hle (propFold_ge_acc t rest l r h)
      · by_cases hp : p.isActiveAt t = true
        · simp only [hp, if_true] at h
          split at h
          · exact ih (some p) r h q hq' hqact
          · exact ih (some l) r h q hq' hqact
        · simp only [Bool.not_eq_true] at hp
          simp only [hp, Bool.false_eq_true, if_false] at h
          exact ih (some l) r h q hq' hqact

theorem propFold_keeps (t : TimePoint) :
    ∀ (ps : List Property) (a : Property),
      (∀ q ∈ ps, q.isActiveAt t = true → q.timePoint.key ≤ a.timePoint.key) →
      propFold t (some a) ps = some a := by
  intro ps
  induction ps with
  | nil => intro a _; rfl
  | cons p rest ih =>
    intro a hdom
    simp only [propFold]
    by_cases hp : p.isActiveAt t = true
    · simp only [hp, if_true]
      have hle : p.timePoint.key ≤ a.timePoint.key :=
        hdom p (List.mem_cons_self _ _) hp
      have hnb : a.timePoint.isBefore p.timePoint = false := by
        rw [isBefore_eq_false_iff]
        exact hle
      rw [hnb]
      simp only [Bool.false_eq_true, if_false]
      exact ih a fun q hq => hdom q (List.mem_cons_of_mem p hq)
    · simp only [Bool.not_eq_true] at hp
      simp only [hp, Bool.false_eq_true, if_false]
      exact ih a fun q hq => hdom q (List.mem_cons_of_mem p hq)

theorem propFold_first_max (t : TimePoint) (p : Property) (hp : p.isActiveAt t = true) :
    ∀ (l₁ l₂ : List Property) (acc : Option Property),
      (∀ a, acc = some a → a.timePoint.key < p.timePoint.key) →
      (∀ q ∈ l₁, q.isActiveAt t = true → q.timePoint.key < p.timePoint.key) →
      (∀ q ∈ l₂, q.isActiveAt t = true → q.timePoint.key ≤ p.timePoint.key) →
      propFold t acc (l₁ ++ p :: l₂) = some p := by
  intro l₁
  induction l₁ with
  | nil =>
    intro l₂ acc hacc h1 h2
    cases acc with
    | none =>
      simp only [List.nil_append, propFold, hp, if_true]
      exact propFold_keeps t l₂ p h2
    | some a =>
      simp only [List.nil_append, propFold, hp, if_true]
      have hb : a.timePoint.isBefore p.timePoint = true := by
        rw [isBefore_iff_key_lt]
        exact hacc a rfl
      rw [hb]
      simp only [if_true]
      exact propFold_keeps t l₂ p h2
  | cons x l₁' ih =>
    intro l₂ acc hacc h1 h2
    have h1' : ∀ q ∈ l₁', q.isActiveAt t = true → q.timePoint.key < p.timePoint.key :=
      fun q hq => h1 q (List.mem_cons_of_mem x hq)
    cases acc with
    | none =>
      simp only [List.cons_append, propFold]
      by_cases hx : x.isActiveAt t = true
      · simp only [hx, if_true]
        exact ih l₂ (some x)
          (fun a ha => by cases ha; exact h1 x (List.mem_cons_self _ _) hx) h1' h2
      · simp only [Bool.not_eq_true] at hx
        simp only [hx, Bool.false_eq_true, if_false]
        exact ih l₂ none (fun a ha => by cases ha) h1' h2
    | some l =>
      simp only [List.cons_append, propFold]
      by_cases hx : x.isActiveAt t = true
      · simp only [hx, if_true]
        split
        · exact ih l₂ (some x)
            (fun a ha => by cases ha; exact h1 x (List.mem_cons_self _ _) hx) h1' h2
        · exact ih l₂ (some l) (fun a ha => by cases ha; exact hacc l rfl) h1' h2
      · simp only [Bool.not_eq_true] at hx
        simp only [hx, Bool.false_eq_true, if_false]
        exact ih l₂ (some l) (fun a ha => by cases ha; exact hacc l rfl) h1' h2

theorem consecutiveCheck_iff_chain : ∀ l : List Int,
    consecutiveCheck l = true ↔ List.Chain' (fun a b => b = a + 1) l := by
  intro l
  induction l with
  | nil => simp [consecutiveCheck]
  | cons a t ih =>
    cases t with
    | nil => simp [consecutiveCheck]
    | cons b t' =>
      rw [consecutiveCheck, List.chain'_cons, Bool.and_eq_true, decide_eq_true_iff, ih]

theorem range_map_succ_head (c : Int) (n : Nat) :
    (List.range (n + 1)).map (fun i : Nat => c + (i : Int))
      = c :: (List.range n).map (fun i : Nat => (c + 1) + (i : Int)) := by
  rw [List.range_succ_eq_map, List.map_cons, List.map_map]
  congr 1
  · norm_num
  · apply List.map_congr_left
    intro i _
    simp only [Function.comp_apply]
    push_cast
    ring

theorem chain_succ_eq_range :
    ∀ (l : List Int) (a : Int), List.Chain' (fun x y => y = x + 1) (a :: l) →
      a :: l = (List.range (l.length + 1)).map (fun i : Nat => a + (i : Int)) := by
  intro l
  induction l with
  | nil =>
    intro a _
    rw [range_map_succ_head]
    simp
  | cons b t ih =>
    intro a h
    rcases List.chain'_cons.mp h with ⟨hab, ht⟩
    have hrec := ih b ht
    rw [List.length_cons, range_map_succ_head, ← hab, ← hrec]

theorem range_map_chain : ∀ (n : Nat) (m : Int),
    List.Chain' (fun a b => b = a + 1)
      ((List.range n).map (fun i : Nat => m + (i : Int))) := by
  intro n
  induction n with
  | zero => intro m; simp
  | succ k ih =>
    intro m
    rw [range_map_succ_head]
    cases hk : k with
    | zero => simp
    | succ k' =>
      rw [List.chain'_cons']
      constructor
      · intro y hy
        rw [range_map_succ_head] at hy
        simp at hy
        omega
      · exact hk ▸ ih (m + 1)

theorem range_map_nodup (m : Int) (n : Nat) :
    ((List.range n).map (fun i : Nat => m + (i : Int))).Nodup :=
  List.Nodup.map (fun i j hij => by omega) (List.nodup_range n)

theorem range_map_sorted (m : Int) (n : Nat) :
    List.Sorted (fun a b => a ≤ b)
      ((List.range n).map (fun i : Nat => m + (i : Int))) := by
  rw [List.Sorted, List.pairwise_map]
  exact (List.pairwise_lt_range n).imp (fun h => by omega)

/-- C1: the collision handler called by moveVertex is a stub that returns
the requested position verbatim, so moving vertex b1 of polygon PB to a
point inside the same-layer polygon PA succeeds with exactly the requested
coordinates and turns a non-overlapping world into one where two same-layer
polygon rings overlap — the very outcome the claim says can never be
committed. -/
theorem moveVertex_commits_overlapping_position :
    c1World.hasSameLayerOverlap = false
  ∧ (moveVertex c1World "b1" { x := 1, y := 1 }).1.toOption.map Prod.fst
      = some { id := "b1", x := 1, y := 1 }
  ∧ (moveVertex c1World "b1" { x := 1, y := 1 }).2.hasSameLayerOverlap = true := by
  have hAB : doPolygonsOverlap
      [⟨0, 0⟩, ⟨2, 0⟩, ⟨2, 2⟩, ⟨0, 2⟩] [⟨3, 0⟩, ⟨5, 0⟩, ⟨5, 2⟩, ⟨3, 2⟩] = false := by
    norm_num [doPolygonsOverlap, ringEdges, isPointInPolygon, doLineSegmentsIntersect,
      show List.range 4 = [0, 1, 2, 3] from by decide]
  have hBA : doPolygonsOverlap
      [⟨3, 0⟩, ⟨5, 0⟩, ⟨5, 2⟩, ⟨3, 2⟩] [⟨0, 0⟩, ⟨2, 0⟩, ⟨2, 2⟩, ⟨0, 2⟩] = false := by
    norm_num [doPolygonsOverlap, ringEdges, isPointInPolygon, doLineSegmentsIntersect,
      show List.range 4 = [0, 1, 2, 3] from by decide]
  have hABmoved : doPolygonsOverlap
      [⟨0, 0⟩, ⟨2, 0⟩, ⟨2, 2⟩, ⟨0, 2⟩] [⟨1, 1⟩, ⟨5, 0⟩, ⟨5, 2⟩, ⟨3, 2⟩] = true := by
    norm_num [doPolygonsOverlap, ringEdges, isPointInPolygon, doLineSegmentsIntersect,
      show List.range 4 = [0, 1, 2, 3] from by decide]
  refine ⟨?_, by decide, ?_⟩
  · have hA : polygonRing c1World (mkPolygon "PA" ["a1", "a2", "a3", "a4"] [] "L0")
        = [⟨0, 0⟩, ⟨2, 0⟩, ⟨2, 2⟩, ⟨0, 2⟩] := by decide
    have hB : polygonRing c1World (mkPolygon "PB" ["b1", "b2", "b3", "b4"] [] "L0")
        = [⟨3, 0⟩, ⟨5, 0⟩, ⟨5, 2⟩, ⟨3, 2⟩] := by decide
    show (c1World.features.any fun f1 =>
      c1World.features.any fun f2 =>
        f1.id ≠ f2.id && f1.kind == FeatureKind.polygon && f2.kind == FeatureKind.polygon
          && f1.layerId == f2.layerId
          && doPolygonsOverlap (polygonRing c1World f1) (polygonRing c1World f2)) = false
    rw [show c1World.features = [mkPolygon "PA" ["a1", "a2", "a3", "a4"] [] "L0",
        mkPolygon "PB" ["b1", "b2", "b3", "b4"] [] "L0"] from rfl]
    simp only [List.any_cons, List.any_nil, hA, hB, hAB, hBA]
    decide
  · have hmoved : (moveVertex c1World "b1" { x := 1, y := 1 }).2 = c1MovedWorld := by
      decide
    have hA : polygonRing c1MovedWorld (mkPolygon "PA" ["a1", "a2", "a3", "a4"] [] "L0")
        = [⟨0, 0⟩, ⟨2, 0⟩, ⟨2, 2⟩, ⟨0, 2⟩] := by decide
    have hB : polygonRing c1MovedWorld (mkPolygon "PB" ["b1", "b2", "b3", "b4"] [] "L0")
        = [⟨1, 1⟩, ⟨5, 0⟩, ⟨5, 2⟩, ⟨3, 2⟩] := by decide
    show ((moveVertex c1World "b1" { x := 1, y := 1 }).2.features.any fun f1 =>
      (moveVertex c1World "b1" { x := 1, y := 1 }).2.features.any fun f2 =>
        f1.id ≠ f2.id && f1.kind == FeatureKind.polygon && f2.kind == FeatureKind.polygon
          && f1.layerId == f2.layerId
          && doPolygonsOverlap (polygonRing (moveVertex c1World "b1" { x := 1, y := 1 }).2 f1)
              (polygonRing (moveVertex c1World "b1" { x := 1, y := 1 }).2 f2)) = true
    rw [hmoved]
    rw [show c1MovedWorld.features = [mkPolygon "PA" ["a1", "a2", "a3", "a4"] [] "L0",
        mkPolygon "PB" ["b1", "b2", "b3", "b4"] [] "L0"] from rfl]
    simp only [List.any_cons, List.any_nil, hA, hB, hABmoved]
    decide

/-- C2: addFeature runs processGeometry — which pushes the fresh vertices
into the world — before the Polygon constructor validates the ring, so a
failing add reports an error while the repository's cached snapshot already
holds the two new vertices: the caller does not see the pre-operation
World. -/
theorem addFeature_error_leaves_partial_write :
    (addFeature c2World "polygon" [propAt 0 "P"] c2Geometry "L0" gen100).1
      = Except.error "Polygon must have at least three vertices"
  ∧ (addFeature c2World "polygon" [propAt 0 "P"] c2Geometry "L0" gen100).2.1
      ≠ c2World
  ∧ ((addFeature c2World "polygon" [propAt 0 "P"] c2Geometry "L0" gen100).2.1.vertices.map
      (fun v => v.id)) = ["vertex-101-0", "vertex-102-0"]
  ∧ c2World.vertices = [] := by
  refine ⟨by decide, by decide, by decide, by decide⟩

/-- C3: deleting feature A sweeps vertex v1 although polygon B still
references v1 in a hole ring, because cleanupUnusedVertices consults only
outer vertex lists; referential integrity (holes included) held before the
delete and is broken after it. -/
theorem deleteFeature_sweeps_hole_referenced_vertex :
    c3World.refIntegrity = true
  ∧ (deleteFeature c3World "A").1 = Except.ok ()
  ∧ ((deleteFeature c3World "A").2.vertices.map (fun v => v.id)).contains "v1" = false
  ∧ ((deleteFeature c3World "A").2.features.any
      (fun f => f.holesVertexIds.flatten.contains "v1")) = true
  ∧ (deleteFeature c3World "A").2.refIntegrity = false := by
  refine ⟨by decide, by decide, by decide, by decide, by decide⟩

/-- C4: adding a polygon with raw outer and hole coordinates creates six
vertices, but deleting the feature again sweeps only the outer three: the
three hole vertices remain as orphans, so the vertex set does not return to
its pre-add contents. -/
theorem addDelete_roundtrip_leaves_orphan_hole_vertices :
    (addFeature c2World "polygon" [propAt 0 "P"] c4Geometry "L0" gen100).1.toOption.map
        (fun f => f.id) = some "polygon-100-0"
  ∧ ((addFeature c2World "polygon" [propAt 0 "P"] c4Geometry "L0" gen100).2.1.vertices.map
      (fun v => v.id))
      = ["vertex-101-0", "vertex-102-0", "vertex-103-0",
         "vertex-104-0", "vertex-105-0", "vertex-106-0"]
  ∧ (deleteFeature
      (addFeature c2World "polygon" [propAt 0 "P"] c4Geometry "L0" gen100).2.1
      "polygon-100-0").1 = Except.ok ()
  ∧ ((deleteFeature
      (addFeature c2World "polygon" [propAt 0 "P"] c4Geometry "L0" gen100).2.1
      "polygon-100-0").2.vertices.map (fun v => v.id))
      = ["vertex-104-0", "vertex-105-0", "vertex-106-0"]
  ∧ c2World.vertices = [] := by
  refine ⟨by decide, by decide, by decide, by decide, by decide⟩

/-- C5: merging the older vertex-100-0 with vertex-200-0 on a polygon that
references the discarded id both in its outer ring and in a hole ring
rewrites only the hole — the hole update is rebuilt from the iteration's
original feature, discarding the outer-ring rewrite — so the surviving
feature still references the discarded id in its outer ring while the vertex
itself has been removed, breaking referential integrity. -/
theorem shareVertices_keeps_discarded_id_in_outer_ring :
    c5World.refIntegrity = true
  ∧ ((shareVertices c5World "vertex-100-0" "vertex-200-0").2.features.map
      (fun f => f.vertexIds))
      = [["vertex-200-0", "vertex-300-0", "vertex-400-0"]]
  ∧ ((shareVertices c5World "vertex-100-0" "vertex-200-0").2.features.map
      (fun f => f.holesVertexIds))
      = [[["vertex-100-0", "vertex-500-0", "vertex-600-0"]]]
  ∧ ((shareVertices c5World "vertex-100-0" "vertex-200-0").2.vertices.all
      (fun v => v.id ≠ "vertex-200-0")) = true
  ∧ (shareVertices c5World "vertex-100-0" "vertex-200-0").2.refIntegrity = false := by
  refine ⟨by decide, by decide, by decide, by decide, by decide⟩

/-- C6: unlinkSharedVertex clones the vertex through the freezing Vertex
constructor and then redefines the frozen id property, which throws a
TypeError whenever the generated id differs from the original — as any fresh
id does — so the operation never yields the fresh-id clone and the world is
left unchanged. -/
theorem unlinkSharedVertex_always_throws_typeerror :
    (unlinkSharedVertex c6World "vertex-100-0" "FL" gen500).1
      = Except.error "TypeError: Cannot redefine property: _id"
  ∧ (unlinkSharedVertex c6World "vertex-100-0" "FL" gen500).2.1 = c6World := by
  refine ⟨by decide, by decide⟩

/-- C7 counterexample: two layers with distinct consecutive orders 1 and 2
pass validateLayerHierarchy although the spec's contiguous-from-zero
predicate rejects them, so the validator is not equivalent to the claimed
0..n-1 test. -/
theorem validateLayerHierarchy_accepts_nonzero_base :
    validateLayerHierarchy [mkLayer 1, mkLayer 2] = true
  ∧ specLayerOrdersZeroContiguous [mkLayer 1, mkLayer 2] = false := by
  refine ⟨by decide, by decide⟩

/-- C7 amended: validateLayerHierarchy returns true exactly when the layer
orders are pairwise distinct and, sorted ascending, form a contiguous run of
integers each one greater than its predecessor — equivalently, a permutation
of m, m+1, ..., m+n-1 for some starting value m, which the source never
forces to be 0. -/
theorem validateLayerHierarchy_iff_contiguous_run (layers : List Layer) :
    validateLayerHierarchy layers = true ↔
      ∃ m : Int, (layers.map (fun l => l.order)).Perm
        ((List.range layers.length).map (fun i : Nat => m + (i : Int))) := by
  have hlen : (layers.map (fun l => l.order)).length = layers.length := by simp
  simp only [validateLayerHierarchy]
  set orders := layers.map (fun l => l.order) with horders
  by_cases hdup : orders.length = orders.dedup.length
  · rw [if_neg (by simpa using hdup)]
    constructor
    · intro hcheck
      have hchain := (consecutiveCheck_iff_chain _).mp hcheck
      have hperm : (orders.insertionSort (fun a b => a ≤ b)).Perm orders :=
        List.perm_insertionSort _ orders
      rcases hs : orders.insertionSort (fun a b => a ≤ b) with _ | ⟨a, t⟩
      · refine ⟨0, ?_⟩
        rw [hs] at hperm
        have hnil : orders = [] := (List.Perm.nil_eq hperm).symm
        have hzero : layers.length = 0 := by
          rw [← hlen, hnil]
          rfl
        rw [hnil, hzero]
        simp
      · rw [hs] at hchain hperm
        have hform := chain_succ_eq_range t a hchain
        refine ⟨a, ?_⟩
        have hlens : t.length + 1 = layers.length := by
          have hl := hperm.length_eq
          simp only [List.length_cons] at hl
          omega
        rw [← hlens]
        exact hperm.symm.trans (hform ▸ List.Perm.refl _)
    · rintro ⟨m, hperm⟩
      have hsorted := List.sorted_insertionSort (fun a b => a ≤ b) orders
      have hperm2 : (orders.insertionSort (fun a b => a ≤ b)).Perm
          ((List.range layers.length).map (fun i : Nat => m + (i : Int))) :=
        (List.perm_insertionSort _ orders).trans hperm
      have heq : orders.insertionSort (fun a b => a ≤ b)
          = (List.range layers.length).map (fun i : Nat => m + (i : Int)) :=
        List.eq_of_perm_of_sorted hperm2 hsorted (range_map_sorted m layers.length)
      rw [consecutiveCheck_iff_chain, heq]
      exact range_map_chain layers.length m
  · rw [if_pos (by simpa using hdup)]
    constructor
    · intro h
      cases h
    · rintro ⟨m, hperm⟩
      exfalso
      have hnodup : orders.Nodup := hperm.nodup_iff.mpr (range_map_nodup m layers.length)
      have hself : orders.dedup = orders := List.dedup_eq_self.mpr hnodup
      rw [hself] at hdup
      exact hdup rfl

/-- C8: a feature with unbounded properties activating at years 100 and 200
yields the year-100 property at year 150, the year-200 property at year 250
and none at year 50; in general getPropertyAt returns a listed property that
is active and whose timePoint no other active property strictly postdates,
and returns none exactly when no listed property is active. -/
theorem getPropertyAt_returns_latest_active :
    (c8Feature.getPropertyAt (yearTP 150) = some (propAt 100 "y100")
      ∧ c8Feature.getPropertyAt (yearTP 250) = some (propAt 200 "y200")
      ∧ c8Feature.getPropertyAt (yearTP 50) = none)
  ∧ ∀ (f : Feature) (t : TimePoint),
      (∀ p, f.getPropertyAt t = some p →
        p ∈ f.properties ∧ p.isActiveAt t = true ∧
          ∀ q ∈ f.properties, q.isActiveAt t = true →
            p.timePoint.isBefore q.timePoint = false)
      ∧ (f.getPropertyAt t = none ↔ ∀ q ∈ f.properties, q.isActiveAt t = false) := by
  constructor
  · exact ⟨by decide, by decide, by decide⟩
  · intro f t
    constructor
    · intro p hp
      unfold Feature.getPropertyAt at hp
      rcases propFold_result t f.properties none p hp with h | h
      · simp at h
      · refine ⟨h.1, h.2, fun q hq hqa => ?_⟩
        rw [isBefore_eq_false_iff]
        exact propFold_dominates t f.properties none p hp q hq hqa
    · unfold Feature.getPropertyAt
      rw [propFold_eq_none_iff]
      simp

/-- C9: the unimplemented history branches complete silently instead of
surfacing an unsupported-operation error: undoing a delete record and
redoing an add or delete record all return success without touching the
world, so nothing is restored or re-applied and no error reaches the
caller. -/
theorem history_unimplemented_branches_succeed_silently :
    (executeReverseOperation c9DeleteOp c2World gen100).1 = Except.ok ()
  ∧ (executeReverseOperation c9DeleteOp c2World gen100).2.1 = c2World
  ∧ (executeOperation c9AddOp c2World gen100).1 = Except.ok ()
  ∧ (executeOperation c9AddOp c2World gen100).2.1 = c2World
  ∧ (executeOperation c9DeleteOp c2World gen100).1 = Except.ok ()
  ∧ (executeOperation c9DeleteOp c2World gen100).2.1 = c2World := by
  refine ⟨by decide, by decide, by decide, by decide, by decide, by decide⟩

/-- C10: when several active properties share the latest activation
timePoint, getPropertyAt returns the one occurring earliest in the property
list, because the scan replaces its candidate only on a strictly later
timePoint. -/
theorem getPropertyAt_tie_breaks_by_list_order (f : Feature) (t : TimePoint)
    (p : Property) (i : Nat) (hi : i < f.properties.length)
    (hip : f.properties.get ⟨i, hi⟩ = p)
    (hact : p.isActiveAt t = true)
    (hmax : ∀ q ∈ f.properties, q.isActiveAt t = true →
      p.timePoint.isBefore q.timePoint = false)
    (hfirst : ∀ q ∈ f.properties.take i, q.isActiveAt t = true →
      q.timePoint ≠ p.timePoint) :
    f.getPropertyAt t = some p := by
  unfold Feature.getPropertyAt
  have hdecomp : f.properties = f.properties.take i ++ p :: f.properties.drop (i + 1) := by
    conv_lhs => rw [← List.take_append_drop i f.properties]
    rw [List.drop_eq_getElem_cons hi]
    simp [← hip, List.get_eq_getElem]
  rw [hdecomp]
  apply propFold_first_max t p hact
  · intro a ha
    cases ha
  · intro q hq hqa
    have hqmem : q ∈ f.properties := List.take_subset i f.properties hq
    have hle : q.timePoint.key ≤ p.timePoint.key := by
      rw [← isBefore_eq_false_iff]
      exact hmax q hqmem hqa
    have hne : q.timePoint.key ≠ p.timePoint.key :=
      fun hk => hfirst q hq hqa (key_inj hk)
    exact lt_of_le_of_ne hle hne
  · intro q hq hqa
    have hqmem : q ∈ f.properties := List.drop_subset (i + 1) f.properties hq
    rw [← isBefore_eq_false_iff]
    exact hmax q hqmem hqa

/-- Witness for C10 at a concrete input: among two active year-200
properties of the scenario feature, the first-listed one is returned. -/
theorem getPropertyAt_tie_witness :
    c10Feature.getPropertyAt (yearTP 300) = some (propAt 200 "first") :=
  getPropertyAt_tie_breaks_by_list_order c10Feature (yearTP 300)
    (propAt 200 "first") 1 (by decide) (by decide) (by decide)
    (by decide) (by decide)

end TimeMap
